import Mathlib

/-
Verification development for the whoop-cli repository.

The repository is a TypeScript CLI that authenticates against a vendor's
mobile-backend API and re-derives a daily statistics summary from several
loosely structured JSON "display trees".  This file gives a shallow
embedding of the response-extraction layer and the token-lifecycle layer
of the source (the single TypeScript source file), and proves/refutes the
frozen claims about it.

Modelling conventions:
  - JSON values are modelled by the inductive `JsVal`.  JSON numbers are
    modelled as exact decimals (`DecNum`, an integer mantissa with a
    power-of-ten scale), matching the decimal literals that appear in
    JSON text; the rare double-precision rounding effects of JavaScript
    are idealised (noted at each point of use).
  - The guarded accesses of the source (`x?.k`, `typeof v === "string"`,
    `Array.isArray(v)`) are modelled by the total helpers `jsGet`,
    `JsVal.asStr?`, `JsVal.asArr?`.  An unguarded member access `x.k`
    (which throws a TypeError in JavaScript when `x` is null/undefined)
    is modelled by `jsMember` in the `Except`-valued variant of an
    extractor; the plain (total) variants use the defensive reading.
  - JavaScript `Date` parsing, calendar breakdown and `toISOString` are
    platform primitives; they are abstracted by the `DateEnv` record and
    the surrounding string surgery is modelled concretely.
  - `Intl`/locale string collation (`localeCompare`) is modelled as
    code-point lexicographic comparison, which agrees with it on the
    fixed-format ISO timestamp keys being compared.
-/

/- Exact decimal numbers: `num / 10 ^ scale`.  Used to model JSON/JS numbers. -/

structure DecNum where
  num : Int
  scale : Nat
deriving DecidableEq, Repr

def DecNum.toRat (d : DecNum) : Rat := (d.num : Rat) / (10 : Rat) ^ d.scale

def tenPow (n : Nat) : Nat := 10 ^ n

/-- Model of JavaScript `Math.round` on an exact decimal: `floor (x + 1/2)`
(JS rounds halves toward positive infinity). -/
def jsRound (d : DecNum) : Int :=
  Int.fdiv (2 * d.num + (tenPow d.scale : Int)) (2 * (tenPow d.scale : Int))

/-- Model of JavaScript `Number(x.toFixed(1))`: round to one decimal place,
ties toward positive infinity (double-representation noise idealised away). -/
def jsToFixed1 (d : DecNum) : DecNum :=
  ⟨Int.fdiv (2 * d.num * 10 + (tenPow d.scale : Int)) (2 * (tenPow d.scale : Int)), 1⟩

/- JSON value model. -/

inductive JsVal where
  | undefined
  | null
  | bool (b : Bool)
  | num (d : DecNum)
  | str (s : String)
  | arr (elems : List JsVal)
  | obj (fields : List (String × JsVal))

/-- Model of a guarded property read: `x?.k`, and `x.k` where `x` is known
to be a non-nullish object.  Reading any property off a primitive yields
`undefined`; a missing key on an object yields `undefined`. -/
def jsGet (v : JsVal) (k : String) : JsVal :=
  match v with
  | .obj fs => match fs.lookup k with | some w => w | none => .undefined
  | _ => .undefined

/-- Model of an UNGUARDED property read `x.k`: in JavaScript this throws a
TypeError when `x` is `null` or `undefined`. -/
def jsMember (v : JsVal) (k : String) : Except String JsVal :=
  match v with
  | .undefined => .error ("TypeError: cannot read properties of undefined (reading " ++ k ++ ")")
  | .null => .error ("TypeError: cannot read properties of null (reading " ++ k ++ ")")
  | v => .ok (jsGet v k)

/-- Model of the guard `Array.isArray(v)` followed by use of `v` as an array. -/
def JsVal.asArr? : JsVal → Option (List JsVal)
  | .arr l => some l
  | _ => none

/-- Model of the guard `typeof v === "string"` followed by use of `v` as a string. -/
def JsVal.asStr? : JsVal → Option String
  | .str s => some s
  | _ => none

/-- Model of the guard `typeof v === "number"` followed by use of `v` as a number. -/
def JsVal.asNum? : JsVal → Option DecNum
  | .num d => some d
  | _ => none

/-- Model of the strict comparison `v === "lit"` against a string literal. -/
def jsStrictEqStr (v : JsVal) (s : String) : Bool :=
  match v with
  | .str t => t == s
  | _ => false

/- Character-level string utilities (Lean's byte-based `String.map`/`trim`
do not evaluate inside the kernel, so the embeddings below work on the
underlying character list). -/

/-- Model of JavaScript `toUpperCase` (ASCII case mapping, like `Char.toUpper`). -/
def jsToUpper (s : String) : String := String.mk (s.data.map Char.toUpper)

/-- Model of JavaScript `toLowerCase` (ASCII case mapping, like `Char.toLower`). -/
def jsToLower (s : String) : String := String.mk (s.data.map Char.toLower)

/-- Model of JavaScript `String.prototype.trim`. -/
def jsTrim (s : String) : String :=
  String.mk (((s.data.dropWhile Char.isWhitespace).reverse.dropWhile Char.isWhitespace).reverse)

/-- Replace every maximal run of characters satisfying `p` by the single
character `r` (models a `replace(/X+/g, "r")` global regex replacement).
The `inRun` flag records whether the previous character was part of a run. -/
def collapseRunsAux (p : Char → Bool) (r : Char) (inRun : Bool) : List Char → List Char
  | [] => []
  | c :: rest =>
    if p c then
      if inRun then collapseRunsAux p r true rest
      else r :: collapseRunsAux p r true rest
    else c :: collapseRunsAux p r false rest

/-- Split at every maximal run of characters satisfying `p`, keeping the
(possibly empty) chunks at both ends — the semantics of JavaScript
`String.prototype.split` with a `/X+/` regex (`"".split` gives `[""]`). -/
def splitRunsAux (p : Char → Bool) (inRun : Bool) (cur : List Char) : List Char → List String
  | [] => [String.mk cur.reverse]
  | c :: rest =>
    if p c then
      if inRun then splitRunsAux p true [] rest
      else String.mk cur.reverse :: splitRunsAux p true [] rest
    else splitRunsAux p false (c :: cur) rest

/-- Model of JavaScript `s.split(/\s+/)`. -/
def jsSplitWs (s : String) : List String := splitRunsAux Char.isWhitespace false [] s.data

/-- Code-point lexicographic comparison of character lists (`≤`). -/
def strLeAux : List Char → List Char → Bool
  | [], _ => true
  | _ :: _, [] => false
  | a :: as, b :: bs =>
    if a.toNat < b.toNat then true
    else if b.toNat < a.toNat then false
    else strLeAux as bs

/-- Model of the comparator `a.localeCompare(b) <= 0` as code-point
lexicographic order: on the fixed-format ISO timestamp strings (and `""`)
that the source compares, locale collation and code-point order agree. -/
def strLe (a b : String) : Bool := strLeAux a.data b.data

/-- Case-insensitive-ready substring test: does `s` contain `pat`?
Models JavaScript `s.includes(pat)` (callers uppercase both sides first). -/
def containsSubstr (s pat : String) : Bool :=
  s.data.tails.any (fun t => pat.data.isPrefixOf t)

/-- Model of `` `${n}`.padStart(2, "0") `` from the source's date formatting. -/
def padStart2 (s : String) : String :=
  if s.length < 2 then String.mk (List.replicate (2 - s.length) '0') ++ s else s

/- Source: parseDisplayNumber / parseDisplayInt (src/unnamed/part_001 lines 314-332). -/

def digitsToNatAux (acc : Nat) : List Char → Nat
  | [] => acc
  | c :: rest => digitsToNatAux (10 * acc + (c.toNat - 48)) rest

/-- Model of JavaScript `Number.parseFloat` restricted to its input alphabet
after sanitisation (digits, `'.'`, `'-'`): an optional leading minus sign,
then integer digits, then an optional fractional part; trailing garbage is
ignored; if no digit is consumed the result is NaN (`none`). -/
def parseFloatJs (l : List Char) : Option DecNum :=
  let signed := match l with
    | '-' :: r => (true, r)
    | r => (false, r)
  let intDigits := signed.2.takeWhile Char.isDigit
  let rest2 := signed.2.dropWhile Char.isDigit
  let fracDigits := match rest2 with
    | '.' :: r => r.takeWhile Char.isDigit
    | _ => []
  if intDigits.isEmpty && fracDigits.isEmpty then none
  else
    let mag : Nat := digitsToNatAux 0 (intDigits ++ fracDigits)
    some ⟨if signed.1 then -(mag : Int) else (mag : Int), fracDigits.length⟩

/-- Predicate for the characters kept by the sanitiser regex `[^0-9.-]`. -/
def keepNumChar (c : Char) : Bool := c.isDigit || c == '.' || c == '-'

/-- Source `parseDisplayNumber`: falsy input → null; strip every character
except digits, `.`, `-`; empty remainder → null; parse with `parseFloat`;
non-finite result → null.  `Number.isFinite` fails exactly for NaN (no
digits consumed, `parseFloatJs` gives `none`) and for double overflow,
which is modelled by the decimal threshold `1e309` (the exact
double-rounding boundary ≈ 1.798e308 is idealised). -/
def parseDisplayNumber (value : Option String) : Option DecNum :=
  match value with
  | none => none
  | some s =>
    if s = "" then none
    else
      let sanitized := s.data.filter keepNumChar
      if sanitized.isEmpty then none
      else
        match parseFloatJs sanitized with
        | none => none
        | some d => if tenPow (309 + d.scale) ≤ d.num.natAbs then none else some d

/-- Source `parseDisplayInt`: `Math.round` of the parsed display number. -/
def parseDisplayInt (value : Option String) : Option Int :=
  match parseDisplayNumber value with
  | none => none
  | some d => some (jsRound d)

/- Source: formatDurationBetween (lines 334-360). -/

/-- Duration formatting for a positive millisecond difference.  `diffMs` is
an integer (valid JS Dates have integer epoch milliseconds), so the
source's `Number.isFinite(diffMs)` guard is always satisfied here. -/
def formatDurationMs (diffMs : Int) : Option String :=
  if diffMs ≤ 0 then none
  else
    let totalSeconds : Nat := (diffMs + 500).toNat / 1000
    let hours := totalSeconds / 3600
    let minutes := (totalSeconds % 3600) / 60
    let seconds := totalSeconds % 60
    let parts :=
      (if 0 < hours then [toString hours ++ "h"] else []) ++
      (if 0 < minutes || 0 < hours then [toString minutes ++ "m"] else []) ++
      (if 0 < seconds && hours == 0 then [toString seconds ++ "s"] else [])
    some (if parts.isEmpty then "0m" else String.intercalate " " parts)

/-- Source `formatDurationBetween`, with `Date` values as epoch milliseconds. -/
def formatDurationBetween (start stop : Option Int) : Option String :=
  match start, stop with
  | some s, some e => formatDurationMs (e - s)
  | _, _ => none

/- Source: formatClock (lines 362-372). -/

/-- Match of the regex `^(\d{1,2}):(\d{2})$` with both captures parsed via
`Number.parseInt(_, 10)` (which drops leading zeros). -/
def clockMatch : List Char → Option (Nat × Nat)
  | [a, ':', c, d] =>
    if a.isDigit && c.isDigit && d.isDigit then
      some (a.toNat - 48, 10 * (c.toNat - 48) + (d.toNat - 48))
    else none
  | [a, b, ':', c, d] =>
    if a.isDigit && b.isDigit && c.isDigit && d.isDigit then
      some (10 * (a.toNat - 48) + (b.toNat - 48), 10 * (c.toNat - 48) + (d.toNat - 48))
    else none
  | _ => none

/-- Source `formatClock`: falsy → null; an `H:MM` display becomes
`"Hh MMm"`; anything else is returned trimmed. -/
def formatClock (value : Option String) : Option String :=
  match value with
  | none => none
  | some s =>
    if s = "" then none
    else
      let trimmed := jsTrim s
      match clockMatch trimmed.data with
      | some hm => some (toString hm.1 ++ "h " ++ toString hm.2 ++ "m")
      | none => some trimmed

/- Source: normalizeWorkoutName (lines 374-385). -/

/-- Source `word.charAt(0).toUpperCase() + word.slice(1)`. -/
def capitalizeWord (w : String) : String :=
  match w.data with
  | [] => ""
  | c :: rest => String.mk (Char.toUpper c :: rest)

/-- Source `normalizeWorkoutName`: falsy → "Workout"; otherwise replace
runs of `_`/`-` with a space, trim, lowercase, split on whitespace,
capitalise each word, and join with single spaces. -/
def normalizeWorkoutName (raw : Option String) : String :=
  match raw with
  | none => "Workout"
  | some s =>
    if s = "" then "Workout"
    else
      let replaced := String.mk (collapseRunsAux (fun c => c == '_' || c == '-') ' ' false s.data)
      let lowered := jsToLower (jsTrim replaced)
      String.intercalate " " ((jsSplitWs lowered).map capitalizeWord)

/- Source: normalizeWhoopTimestamp / parseDate / toLocalIso (lines 274-312). -/

/-- The regex replacement `raw.replace(/([+-]\d{2})(\d{2})$/, "$1:$2")`:
if the string ends in a sign followed by four digits, insert a colon
before the final two digits. -/
def fixOffsetColon (s : String) : String :=
  let cs := s.data
  let n := cs.length
  if 5 ≤ n then
    match cs.drop (n - 5) with
    | [c0, d1, d2, d3, d4] =>
      if (c0 == '+' || c0 == '-') && d1.isDigit && d2.isDigit && d3.isDigit && d4.isDigit then
        String.mk (cs.take (n - 5) ++ [c0, d1, d2, ':', d3, d4])
      else s
    | _ => s
  else s

/-- Source `normalizeWhoopTimestamp`: falsy → null, else the colon fix. -/
def normalizeWhoopTimestamp (raw : Option String) : Option String :=
  match raw with
  | none => none
  | some s => if s = "" then none else some (fixOffsetColon s)

/-- Abstraction of the JavaScript `Date` platform primitives used by the
source: parsing a timestamp string to epoch milliseconds (`none` models an
Invalid Date, i.e. `Number.isNaN(parsed.getTime())`), the local-calendar
getters, `getTimezoneOffset`, and `toISOString`. -/
structure DateEnv where
  parseMs : String → Option Int
  fullYear : Int → Int
  month0 : Int → Nat
  dayOfMonth : Int → Nat
  hoursOf : Int → Nat
  minutesOf : Int → Nat
  secondsOf : Int → Nat
  tzOffsetMin : Int → Int
  toISO : Int → String

/-- Source `parseDate`: normalise the offset, parse, reject invalid dates. -/
def parseDate (env : DateEnv) (raw : Option String) : Option Int :=
  match normalizeWhoopTimestamp raw with
  | none => none
  | some s => env.parseMs s

/-- Source `toLocalIso`: format the parsed instant in the machine's local
timezone as `YYYY-MM-DDTHH:mm:ss±HH:MM`. -/
def toLocalIso (env : DateEnv) (raw : Option String) : Option String :=
  match parseDate env raw with
  | none => none
  | some t =>
    let month := padStart2 (toString (env.month0 t + 1))
    let day := padStart2 (toString (env.dayOfMonth t))
    let hour := padStart2 (toString (env.hoursOf t))
    let minute := padStart2 (toString (env.minutesOf t))
    let second := padStart2 (toString (env.secondsOf t))
    let offset := - env.tzOffsetMin t
    let sign := if 0 ≤ offset then "+" else "-"
    let absOffset := offset.natAbs
    let offsetHour := padStart2 (toString (absOffset / 60))
    let offsetMinute := padStart2 (toString (absOffset % 60))
    some (toString (env.fullYear t) ++ "-" ++ month ++ "-" ++ day ++ "T" ++ hour ++ ":" ++
      minute ++ ":" ++ second ++ sign ++ offsetHour ++ ":" ++ offsetMinute)

/- Source: formatResponseExcerpt (lines 1041-1052). -/

/-- Source `text.replace(/\s+/g, " ")`. -/
def collapseWs (s : String) : String :=
  String.mk (collapseRunsAux Char.isWhitespace ' ' false s.data)

/-- Source `formatResponseExcerpt`: trim the body text, return `""` when
empty, otherwise a marker plus the whitespace-collapsed first 300
characters. -/
def formatResponseExcerpt (body : String) : String :=
  let text := jsTrim body
  if text = "" then ""
  else " | body: " ++ String.mk ((collapseWs text).data.take 300)

/- Source: key-statistic extraction (lines 398-439). -/

/-- One key statistic: current and 30-day display strings (source `KeyStat`). -/
structure KeyStat where
  current : Option String
  thirtyDay : Option String
deriving DecidableEq, Repr

/-- Insertion-ordered record update, modelling `stats[trendKey] = {...}` on a
plain JavaScript object: an existing key is overwritten in place, a new key
is appended. -/
def insertKeep (l : List (String × KeyStat)) (k : String) (v : KeyStat) : List (String × KeyStat) :=
  match l with
  | [] => [(k, v)]
  | (k1, v1) :: rest => if k1 = k then (k, v) :: rest else (k1, v1) :: insertKeep rest k v

/-- Source `getOverviewPillar`: the first pillar whose `type` is `"OVERVIEW"`
(all accesses in it are optional-chained, so it never throws). -/
def getOverviewPillar (overview : JsVal) : Option JsVal :=
  match (jsGet overview "pillars").asArr? with
  | none => none
  | some pillars => pillars.find? (fun p => jsStrictEqStr (jsGet p "type") "OVERVIEW")

/-- Items array of a section under the defensive reading: `section.items`
when it is an array, else nothing (the source `continue`s). -/
def sectionItems (sec : JsVal) : List JsVal := ((jsGet sec "items").asArr?).getD []

/-- Loop body of `getKeyStats` for one item: record a `KEY_STATISTIC` item
whose `content.trend_key` is a string, capturing the two display strings
when they are strings (null otherwise). -/
def keyStatsItem (stats : List (String × KeyStat)) (item : JsVal) : List (String × KeyStat) :=
  if jsStrictEqStr (jsGet item "type") "KEY_STATISTIC" then
    match (jsGet (jsGet item "content") "trend_key").asStr? with
    | none => stats
    | some trendKey =>
      insertKeep stats trendKey
        ⟨(jsGet (jsGet item "content") "current_value_display").asStr?,
         (jsGet (jsGet item "content") "thirty_day_value_display").asStr?⟩
  else stats

/-- Source `getKeyStats` under the defensive (never-throwing) reading of
`section.items`: scan every section of the OVERVIEW pillar. -/
def getKeyStats (overview : JsVal) : List (String × KeyStat) :=
  match getOverviewPillar overview with
  | none => []
  | some p =>
    match (jsGet p "sections").asArr? with
    | none => []
    | some sections => sections.foldl (fun stats sec => (sectionItems sec).foldl keyStatsItem stats) []

/-- Loop body of `getKeyStats` for one section, FAITHFUL to JavaScript
member-access semantics: `section.items` is an unguarded plain access, so a
`null` element of the `sections` array throws. -/
def keyStatsSectionE (stats : List (String × KeyStat)) (sec : JsVal) :
    Except String (List (String × KeyStat)) := do
  let items ← jsMember sec "items"
  match items.asArr? with
  | none => pure stats
  | some l => pure (l.foldl keyStatsItem stats)

/-- Source `getKeyStats` with JavaScript exception semantics for the one
unguarded access `section.items` (every other access is optional-chained or
guarded).  `Except.error` models a thrown TypeError. -/
def getKeyStatsE (overview : JsVal) : Except String (List (String × KeyStat)) :=
  match getOverviewPillar overview with
  | none => .ok []
  | some p =>
    match (jsGet p "sections").asArr? with
    | none => .ok []
    | some sections => sections.foldlM keyStatsSectionE []

/- Source: getWeightStat (lines 441-456). -/

/-- Source preferred-identifier list for weight resolution. -/
def preferredWeightKeys : List String :=
  ["WEIGHT", "BODY_WEIGHT", "WEIGHT_LBS", "WEIGHT_KG", "BODY_MASS"]

/-- Source `getWeightStat`: first preferred key present in the table, else
the first entry whose identifier contains `WEIGHT` after uppercasing, else
null.  The table keeps JavaScript object insertion order, so
`Object.entries` is list order. -/
def getWeightStat (keyStats : List (String × KeyStat)) : Option KeyStat :=
  match preferredWeightKeys.findSome? (fun k => keyStats.lookup k) with
  | some st => some st
  | none =>
    match keyStats.find? (fun p => containsSubstr (jsToUpper p.1) "WEIGHT") with
    | some p => some p.2
    | none => none

/-- Spec-side restatement of the weight-resolution policy, following the
spec's words: walk the ordered preferred list and return the first entry
present; failing that, walk the table and return the first entry whose
identifier contains `WEIGHT` case-insensitively; failing that, null.
Compared against the source translation `getWeightStat` in claim C5. -/
def firstPreferredStat : List String → List (String × KeyStat) → Option KeyStat
  | [], _ => none
  | k :: ks, table =>
    match table.lookup k with
    | some v => some v
    | none => firstPreferredStat ks table

/-- Spec-side fallback walk: first entry whose identifier contains `WEIGHT`
case-insensitively. -/
def firstContainsWeight : List (String × KeyStat) → Option KeyStat
  | [] => none
  | (k, v) :: rest =>
    if containsSubstr (jsToUpper k) "WEIGHT" then some v else firstContainsWeight rest

/-- Spec-side weight resolution assembled from the two walks. -/
def getWeightStatSpec (table : List (String × KeyStat)) : Option KeyStat :=
  (firstPreferredStat preferredWeightKeys table).orElse (fun _ => firstContainsWeight table)

/- JavaScript template-string coercion, used by `${activity?.content?.title ?? ""}`. -/

/-- Decimal rendering of a `DecNum`, approximating JavaScript
number-to-string conversion (shortest-decimal details idealised; only
reachable when a title/type field holds a non-string value). -/
def decNumToString (d : DecNum) : String :=
  let sign := if d.num < 0 then "-" else ""
  let digits := toString d.num.natAbs
  if d.scale = 0 then sign ++ digits
  else
    let padded :=
      if digits.length ≤ d.scale then
        String.mk (List.replicate (d.scale + 1 - digits.length) '0') ++ digits
      else digits
    let intPart := String.mk (padded.data.take (padded.length - d.scale))
    let fracPart := ((padded.data.drop (padded.length - d.scale)).reverse.dropWhile (· == '0')).reverse
    if fracPart.isEmpty then sign ++ intPart else sign ++ intPart ++ "." ++ String.mk fracPart

mutual
/-- JavaScript ToString as used in a template literal. -/
def jsTpl : JsVal → String
  | .undefined => "undefined"
  | .null => "null"
  | .bool true => "true"
  | .bool false => "false"
  | .num d => decNumToString d
  | .str s => s
  | .obj _ => "[object Object]"
  | .arr l => String.intercalate "," (jsTplList l)
/-- Element-wise ToString for the array case of `jsTpl`. -/
def jsTplList : List JsVal → List String
  | [] => []
  | v :: rest => jsTpl v :: jsTplList rest
end

/-- Model of `` `${v ?? ""}` ``: nullish values coerce to the empty string. -/
def templateOrEmpty (v : JsVal) : String :=
  match v with
  | .undefined => ""
  | .null => ""
  | v => jsTpl v

/- Source: getSleepActivityFromOverview (lines 458-486). -/

/-- Inner items of an `ITEMS_CARD` item (`item?.content?.items` when it is
an array; the source `continue`s otherwise). -/
def itemsCardActivities (item : JsVal) : List JsVal :=
  if jsStrictEqStr (jsGet item "type") "ITEMS_CARD" then
    ((jsGet (jsGet item "content") "items").asArr?).getD []
  else []

/-- The sleep test of `getSleepActivityFromOverview`: an `ACTIVITY` whose
uppercased title or type is `"SLEEP"`. -/
def isSleepActivity (a : JsVal) : Bool :=
  jsStrictEqStr (jsGet a "type") "ACTIVITY" &&
    (jsToUpper (templateOrEmpty (jsGet (jsGet a "content") "title")) == "SLEEP" ||
     jsToUpper (templateOrEmpty (jsGet (jsGet a "content") "type")) == "SLEEP")

/-- Source `getSleepActivityFromOverview` (defensive reading of
`section.items`): the `content` of the first sleep-tagged activity inside
the OVERVIEW pillar's `ITEMS_CARD` items. -/
def getSleepActivityFromOverview (overview : JsVal) : Option JsVal :=
  match getOverviewPillar overview with
  | none => none
  | some p =>
    match (jsGet p "sections").asArr? with
    | none => none
    | some sections =>
      (((sections.flatMap sectionItems).flatMap itemsCardActivities).find? isSleepActivity).map
        (fun a => jsGet a "content")

/- Source: getActivitiesFromOverview / getActivitiesFromStrain (lines 488-556). -/

/-- One collected activity entry (title/type/during endpoints, strings or null). -/
structure RawActivity where
  title : Option String
  type : Option String
  start : Option String
  stop : Option String
deriving DecidableEq, Repr

/-- Collect an `ACTIVITY` item into a `RawActivity` (non-string fields → null). -/
def rawActivityOfItem (a : JsVal) : Option RawActivity :=
  if jsStrictEqStr (jsGet a "type") "ACTIVITY" then
    some
      { title := (jsGet (jsGet a "content") "title").asStr?
        type := (jsGet (jsGet a "content") "type").asStr?
        start := (jsGet (jsGet (jsGet a "content") "during") "lower_endpoint").asStr?
        stop := (jsGet (jsGet (jsGet a "content") "during") "upper_endpoint").asStr? }
  else none

/-- Source `getActivitiesFromOverview` (defensive reading): every `ACTIVITY`
inside the OVERVIEW pillar's `ITEMS_CARD` items, in document order. -/
def getActivitiesFromOverview (overview : JsVal) : List RawActivity :=
  match getOverviewPillar overview with
  | none => []
  | some p =>
    match (jsGet p "sections").asArr? with
    | none => []
    | some sections =>
      ((sections.flatMap sectionItems).flatMap itemsCardActivities).filterMap rawActivityOfItem

/-- Source `getActivitiesFromStrain` (defensive reading): every top-level
`ACTIVITY` item of the strain tree's sections, in document order. -/
def getActivitiesFromStrain (strain : JsVal) : List RawActivity :=
  match (jsGet strain "sections").asArr? with
  | none => []
  | some sections => (sections.flatMap sectionItems).filterMap rawActivityOfItem

/- Source: buildWorkouts (lines 558-589). -/

/-- One output workout entry. -/
structure Workout where
  name : String
  start : Option String
  stop : Option String
  duration : Option String
deriving DecidableEq, Repr

/-- Per-activity transform of the `buildWorkouts` loop: drop entries whose
uppercased title is empty or `"SLEEP"`, or whose uppercased type is
`"SLEEP"`; otherwise normalise the name, parse both endpoints, format them
with `toISOString`, and compute the human duration. -/
def workoutOfActivity (env : DateEnv) (a : RawActivity) : Option Workout :=
  let title := jsToUpper (a.title.getD "")
  let ty := jsToUpper (a.type.getD "")
  if title = "" || title = "SLEEP" || ty = "SLEEP" then none
  else
    let startDate := parseDate env a.start
    let stopDate := parseDate env a.stop
    some
      { name := normalizeWorkoutName a.title
        start := startDate.map env.toISO
        stop := stopDate.map env.toISO
        duration := formatDurationBetween startDate stopDate }

/-- Dedup key of the source: `` `${name}|${start ?? ""}|${end ?? ""}` ``. -/
def workoutKey (w : Workout) : String :=
  w.name ++ "|" ++ w.start.getD "" ++ "|" ++ w.stop.getD ""

/-- Dedup tuple named by the claim: (normalised name, ISO start, ISO end),
with null endpoints read as the empty string exactly as the key does. -/
def workoutTuple (w : Workout) : String × String × String :=
  (w.name, w.start.getD "", w.stop.getD "")

/-- The `buildWorkouts` collection loop: a fold over the combined activity
list carrying the `seen` key set, keeping the first occurrence of each key. -/
def buildWorkoutsGo (env : DateEnv) (seen : List String) : List RawActivity → List Workout
  | [] => []
  | a :: rest =>
    match workoutOfActivity env a with
    | none => buildWorkoutsGo env seen rest
    | some w =>
      if workoutKey w ∈ seen then buildWorkoutsGo env seen rest
      else w :: buildWorkoutsGo env (workoutKey w :: seen) rest

/-- Sort key: `a.start ?? ""`. -/
def workoutStartKey (w : Workout) : String := w.start.getD ""

/-- Stable insertion of one workout into a list sorted by start key
(placed before the first entry it does not strictly follow, as a stable
JavaScript `Array.prototype.sort` does). -/
def orderedInsertWorkout (w : Workout) : List Workout → List Workout
  | [] => [w]
  | x :: xs =>
    if strLe (workoutStartKey w) (workoutStartKey x) then w :: x :: xs
    else x :: orderedInsertWorkout w xs

/-- Stable sort by start key (model of `workouts.sort((a, b) =>
(a.start ?? "").localeCompare(b.start ?? ""))`). -/
def sortWorkouts : List Workout → List Workout
  | [] => []
  | w :: ws => orderedInsertWorkout w (sortWorkouts ws)

/-- Source `buildWorkouts`: combine the overview and strain activities,
filter/normalise/dedup via the seen-key fold, then sort by start key. -/
def buildWorkouts (env : DateEnv) (overview strain : JsVal) : List Workout :=
  let combined := getActivitiesFromOverview overview ++ getActivitiesFromStrain strain
  sortWorkouts (buildWorkoutsGo env [] combined)

/-- Spec-side deduplication by the TUPLE (name, start, end), first
occurrence winning, as the claim states it. -/
def dedupByTupleAux (seen : List (String × String × String)) : List Workout → List Workout
  | [] => []
  | w :: rest =>
    if workoutTuple w ∈ seen then dedupByTupleAux seen rest
    else w :: dedupByTupleAux (workoutTuple w :: seen) rest

/-- Spec-side restatement of `buildWorkouts` following the claim's words:
map the per-activity transform over the combined list, deduplicate by the
tuple (name, start, end) keeping first occurrences, sort ascending by
start key.  Compared against the source translation in claim C4. -/
def buildWorkoutsSpec (env : DateEnv) (overview strain : JsVal) : List Workout :=
  let combined := getActivitiesFromOverview overview ++ getActivitiesFromStrain strain
  sortWorkouts (dedupByTupleAux [] (combined.filterMap (workoutOfActivity env)))

/-- The per-activity transform as claim C4 LITERALLY states it: only
entries whose title or type equals SLEEP case-insensitively are excluded
(the claim omits the source's additional exclusion of entries with a
missing/empty title). -/
def workoutOfActivityClaimed (env : DateEnv) (a : RawActivity) : Option Workout :=
  let title := jsToUpper (a.title.getD "")
  let ty := jsToUpper (a.type.getD "")
  if title = "SLEEP" || ty = "SLEEP" then none
  else
    let startDate := parseDate env a.start
    let stopDate := parseDate env a.stop
    some
      { name := normalizeWorkoutName a.title
        start := startDate.map env.toISO
        stop := stopDate.map env.toISO
        duration := formatDurationBetween startDate stopDate }

/-- The `buildWorkouts` pipeline as claim C4 literally states it (used only
to exhibit the counterexample input on which it differs from the source). -/
def buildWorkoutsClaimed (env : DateEnv) (overview strain : JsVal) : List Workout :=
  let combined := getActivitiesFromOverview overview ++ getActivitiesFromStrain strain
  sortWorkouts (dedupByTupleAux [] (combined.filterMap (workoutOfActivityClaimed env)))

/- Source: getSleepScore / getSleepEfficiency / getSleepHoursVsNeeded (lines 591-651). -/

/-- Source `getSleepScore` (defensive reading): `score_display` of the first
`SCORE_GAUGE` item, parsed as a display integer. -/
def getSleepScore (sleep : JsVal) : Option Int :=
  match (jsGet sleep "sections").asArr? with
  | none => none
  | some sections =>
    match (sections.flatMap sectionItems).find?
        (fun item => jsStrictEqStr (jsGet item "type") "SCORE_GAUGE") with
    | some item => parseDisplayInt ((jsGet (jsGet item "content") "score_display").asStr?)
    | none => none

/-- Metrics carried by one `CONTRIBUTORS_TILE` item (`content.metrics` when
it is an array, else nothing — the source `continue`s). -/
def contributorsMetrics (item : JsVal) : List JsVal :=
  if jsStrictEqStr (jsGet item "type") "CONTRIBUTORS_TILE" then
    ((jsGet (jsGet item "content") "metrics").asArr?).getD []
  else []

/-- Shared walk of `getSleepEfficiency` / `getSleepHoursVsNeeded`: the
`status` of the first `CONTRIBUTORS_TILE` metric with the given id, parsed
as a display integer. -/
def contributorsTileMetric (sleep : JsVal) (metricId : String) : Option Int :=
  match (jsGet sleep "sections").asArr? with
  | none => none
  | some sections =>
    match ((sections.flatMap sectionItems).flatMap contributorsMetrics).find?
        (fun metric => jsStrictEqStr (jsGet metric "id") metricId) with
    | some metric => parseDisplayInt ((jsGet metric "status").asStr?)
    | none => none

/-- Source `getSleepEfficiency` (defensive reading). -/
def getSleepEfficiency (sleep : JsVal) : Option Int :=
  contributorsTileMetric sleep "CONTRIBUTORS_TILE_IN_SLEEP_EFFICIENCY"

/-- Source `getSleepHoursVsNeeded` (defensive reading). -/
def getSleepHoursVsNeeded (sleep : JsVal) : Option Int :=
  contributorsTileMetric sleep "CONTRIBUTORS_TILE_HOURS_V_NEEDED"

/- Source: getSleepStages (lines 653-686). -/

/-- Output of `getSleepStages`. -/
structure SleepStages where
  rem : Option String
  deep : Option String
  light : Option String
deriving DecidableEq, Repr

/-- Source `getSleepStages` (defensive reading): find the first
`DETAILS_GRAPHING_CARD` with `content.id == "hours_of_sleep"`, then its
`BAR_GRAPH_CARD`, then fold its `heart_rate_zones`, assigning the formatted
clock display to the stage named by each zone id (processing stops after
the first matching card, as the source returns inside the loop). -/
def getSleepStages (lastNight : JsVal) : SleepStages :=
  match (jsGet lastNight "sections").asArr? with
  | none => ⟨none, none, none⟩
  | some sections =>
    match (sections.flatMap sectionItems).find?
        (fun item =>
          jsStrictEqStr (jsGet item "type") "DETAILS_GRAPHING_CARD" &&
            jsStrictEqStr (jsGet (jsGet item "content") "id") "hours_of_sleep") with
    | none => ⟨none, none, none⟩
    | some item =>
      let cardContent := ((jsGet (jsGet item "content") "card_content").asArr?).getD []
      let barCard := cardContent.find? (fun e => jsStrictEqStr (jsGet e "type") "BAR_GRAPH_CARD")
      let zones :=
        match barCard with
        | some bc => ((jsGet (jsGet bc "content") "heart_rate_zones").asArr?).getD []
        | none => []
      zones.foldl
        (fun st zone =>
          let value := formatClock ((jsGet zone "bar_graph_tile_time_display").asStr?)
          if jsStrictEqStr (jsGet zone "id") "REM_SLEEP" then { st with rem := value }
          else if jsStrictEqStr (jsGet zone "id") "SWS_SLEEP" then { st with deep := value }
          else if jsStrictEqStr (jsGet zone "id") "LIGHT_SLEEP" then { st with light := value }
          else st)
        ⟨none, none, none⟩

/- Source: getBedWakeTimes (lines 688-704). -/

/-- Result of `getBedWakeTimes`. -/
structure BedWake where
  bedTime : Option String
  wakeTime : Option String
deriving DecidableEq, Repr

/-- JavaScript truthiness of a `string | null` value: null and `""` are falsy. -/
def strTruthy : Option String → Bool
  | none => false
  | some s => s != ""

/-- Header-derived bed time: `toLocalIso` of the last-night payload's
`header_section.destination.parameters.start_time` when it is a string. -/
def bedTimeFromHeader (env : DateEnv) (lastNight : JsVal) : Option String :=
  toLocalIso env
    ((jsGet (jsGet (jsGet (jsGet lastNight "header_section") "destination") "parameters")
        "start_time").asStr?)

/-- Header-derived wake time: same with `end_time`. -/
def wakeTimeFromHeader (env : DateEnv) (lastNight : JsVal) : Option String :=
  toLocalIso env
    ((jsGet (jsGet (jsGet (jsGet lastNight "header_section") "destination") "parameters")
        "end_time").asStr?)

/-- The sleep activity used as fallback, as a value (`?? null`). -/
def sleepActivityVal (overview : JsVal) : JsVal :=
  match getSleepActivityFromOverview overview with
  | some v => v
  | none => JsVal.null

/-- Fallback bed time: `toLocalIso(sleepActivity?.during?.lower_endpoint)`
(defensive reading of the unguarded non-string case). -/
def bedTimeFallback (env : DateEnv) (overview : JsVal) : Option String :=
  toLocalIso env ((jsGet (jsGet (sleepActivityVal overview) "during") "lower_endpoint").asStr?)

/-- Fallback wake time: same with `upper_endpoint`. -/
def wakeTimeFallback (env : DateEnv) (overview : JsVal) : Option String :=
  toLocalIso env ((jsGet (jsGet (sleepActivityVal overview) "during") "upper_endpoint").asStr?)

/-- Source `getBedWakeTimes`: prefer the header times when BOTH are truthy;
otherwise fill each missing side (`??`) from the overview's sleep activity. -/
def getBedWakeTimes (env : DateEnv) (lastNight overview : JsVal) : BedWake :=
  let fromLastNight : BedWake := ⟨bedTimeFromHeader env lastNight, wakeTimeFromHeader env lastNight⟩
  if strTruthy fromLastNight.bedTime && strTruthy fromLastNight.wakeTime then fromLastNight
  else
    ⟨fromLastNight.bedTime.orElse (fun _ => bedTimeFallback env overview),
     fromLastNight.wakeTime.orElse (fun _ => wakeTimeFallback env overview)⟩

/- Source: getDayEndTime (lines 706-712). -/

/-- Source `getDayEndTime`: `metadata.cycle_metadata.during.upper_endpoint`
of the overview payload when it is a string, in local ISO form. -/
def getDayEndTime (env : DateEnv) (overview : JsVal) : Option String :=
  match (jsGet (jsGet (jsGet (jsGet overview "metadata") "cycle_metadata") "during")
      "upper_endpoint").asStr? with
  | none => none
  | some raw => toLocalIso env (some raw)

/- Source: parseNextUpdateIn (lines 387-396) and healthspanSummary (lines 714-738). -/

/-- Line terminators that JavaScript `.` does not match. -/
def isLineTerm (c : Char) : Bool :=
  c == '\n' || c == '\r' || c == Char.ofNat 0x2028 || c == Char.ofNat 0x2029

/-- Case-insensitive literal-prefix test for the keyword of the regex
`/NEXT UPDATE IN\s+(.+)/i` (the pattern letters are uppercase). -/
def ciStartsWith (pat l : List Char) : Bool := pat.isPrefixOf (l.map Char.toUpper)

/-- Match of the regex tail `\s+(.+)` against the text following the
keyword: at least one whitespace character, then the capture, which the
greedy backtracking semantics place at the largest offset `j` into the
whitespace run whose following character exists and is not a line
terminator; the capture then extends to the next line terminator. -/
def nextUpdateTail (l : List Char) : Option (List Char) :=
  let run := l.takeWhile Char.isWhitespace
  if run.isEmpty then none
  else
    match ((List.range (run.length + 1)).reverse.filter
        (fun j => 1 ≤ j &&
          match l.drop j with
          | c :: _ => !isLineTerm c
          | [] => false)).head? with
    | none => none
    | some j => some ((l.drop j).takeWhile (fun c => !isLineTerm c))

/-- Search of `/NEXT UPDATE IN\s+(.+)/i` over the subject: first position at
which the whole pattern matches wins. -/
def findNextUpdateAux : List Char → Option (List Char)
  | [] => none
  | c :: rest =>
    if ciStartsWith "NEXT UPDATE IN".data (c :: rest) then
      match nextUpdateTail ((c :: rest).drop ("NEXT UPDATE IN".data.length)) with
      | some cap => some cap
      | none => findNextUpdateAux rest
    else findNextUpdateAux rest

/-- Source `parseNextUpdateIn`: falsy → null; the lowercased capture of the
countdown regex when it matches, else the whole value lowercased. -/
def parseNextUpdateIn (value : Option String) : Option String :=
  match value with
  | none => none
  | some s =>
    if s = "" then none
    else
      match findNextUpdateAux s.data with
      | some cap => some (jsToLower (String.mk cap))
      | none => some (jsToLower s)

/-- Output of `healthspanSummary`. -/
structure HealthspanSummary where
  whoopAge : Option DecNum
  yearsDifference : Option DecNum
  paceOfAging : Option DecNum
  nextUpdateIn : Option String
deriving DecidableEq, Repr

/-- Source `healthspanSummary`: numeric `style_values` rounded to one
decimal, falling back to parsing the decorated display strings (defensive
reading of the unguarded non-string case); the countdown comes from
`navigation_subtitle` when it is a string. -/
def healthspanSummary (hs : JsVal) : HealthspanSummary :=
  let amoeba := jsGet (jsGet hs "unlocked_content") "whoop_age_amoeba"
  let styleValues := jsGet amoeba "style_values"
  { whoopAge :=
      match (jsGet styleValues "age").asNum? with
      | some d => some (jsToFixed1 d)
      | none => parseDisplayNumber ((jsGet amoeba "age_value_display").asStr?)
    yearsDifference := ((jsGet styleValues "years_difference").asNum?).map jsToFixed1
    paceOfAging :=
      match (jsGet styleValues "pace_of_aging").asNum? with
      | some d => some (jsToFixed1 d)
      | none => parseDisplayNumber ((jsGet amoeba "pace_of_aging_display").asStr?)
    nextUpdateIn := parseNextUpdateIn ((jsGet hs "navigation_subtitle").asStr?) }

/- Source: buildDailyStats (lines 844-917) as a pure function of the five
fetched payloads (the five fetches run concurrently and independently; the
aggregation itself is pure). -/

/-- Day group of the output. -/
structure DayOut where
  start : Option String
  stop : Option String
deriving DecidableEq, Repr

/-- Value / 30-day-average pair of integers. -/
structure AvgPair where
  value : Option Int
  avg30d : Option Int
deriving DecidableEq, Repr

/-- Sleep group of the output. -/
structure SleepOut where
  score : Option Int
  hours : Option String
  hoursVsNeeded : Option Int
  hoursNeeded : Option String
  hours30dAvg : Option String
  efficiency : Option Int
  rhr : AvgPair
  hrv : AvgPair
  bedTime : Option String
  wakeTime : Option String
  stages : SleepStages
deriving DecidableEq, Repr

/-- Weight group of the output (fractional values allowed). -/
structure WeightOut where
  value : Option DecNum
  avg30d : Option DecNum
deriving DecidableEq, Repr

/-- The source `DailyStatsOutput` record. -/
structure DailyStatsOutput where
  date : String
  day : DayOut
  sleep : SleepOut
  steps : AvgPair
  weight : WeightOut
  workouts : List Workout
  healthspan : HealthspanSummary
deriving DecidableEq, Repr

/-- Source `buildDailyStats`: run every extractor against the five payloads
and assemble the output record. -/
def buildDailyStats (env : DateEnv) (date : String)
    (overview sleep strain healthspan sleepLastNight : JsVal) : DailyStatsOutput :=
  let keyStats := getKeyStats overview
  let stages := getSleepStages sleepLastNight
  let bedWake := getBedWakeTimes env sleepLastNight overview
  let dayEnd := getDayEndTime env overview
  let workouts := buildWorkouts env overview strain
  let health := healthspanSummary healthspan
  let weightStat := getWeightStat keyStats
  { date := date
    day := { start := bedWake.wakeTime, stop := dayEnd }
    sleep :=
      { score := getSleepScore sleep
        hours := formatClock ((keyStats.lookup "SLEEP_HOURS").bind KeyStat.current)
        hoursVsNeeded := getSleepHoursVsNeeded sleep
        hoursNeeded := formatClock ((keyStats.lookup "SLEEP_NEED").bind KeyStat.current)
        hours30dAvg := formatClock ((keyStats.lookup "SLEEP_HOURS").bind KeyStat.thirtyDay)
        efficiency := getSleepEfficiency sleep
        rhr :=
          { value := parseDisplayInt ((keyStats.lookup "RHR").bind KeyStat.current)
            avg30d := parseDisplayInt ((keyStats.lookup "RHR").bind KeyStat.thirtyDay) }
        hrv :=
          { value := parseDisplayInt ((keyStats.lookup "HRV").bind KeyStat.current)
            avg30d := parseDisplayInt ((keyStats.lookup "HRV").bind KeyStat.thirtyDay) }
        bedTime := bedWake.bedTime
        wakeTime := bedWake.wakeTime
        stages := stages }
    steps :=
      { value := parseDisplayInt ((keyStats.lookup "STEPS").bind KeyStat.current)
        avg30d := parseDisplayInt ((keyStats.lookup "STEPS").bind KeyStat.thirtyDay) }
    weight :=
      { value := parseDisplayNumber (weightStat.bind KeyStat.current)
        avg30d := parseDisplayNumber (weightStat.bind KeyStat.thirtyDay) }
    workouts := workouts
    healthspan := health }

/- Source: the authenticated client's token lifecycle (lines 72-215).

JavaScript executes on a single-threaded event loop, so each synchronous
section of `login()` / the `get` loop runs atomically; concurrency is the
interleaving of these sections at `await` points.  The models below expose
exactly those interleaving points. -/

/-- Source `TokenData`. -/
structure TokenData where
  accessToken : String
  expiresAt : Int
deriving DecidableEq, Repr

/-- Outcome with which one login attempt settles. -/
inductive LoginOutcome where
  | success (t : TokenData)
  | failure (e : String)
deriving DecidableEq, Repr

/-- State owned by the client for login coordination: the in-flight attempt
marker (`loginInFlight`, identified by an attempt id standing for the shared
promise object), a fresh-id counter, the stored token, and the settled
result of each attempt (what any caller awaiting that attempt's promise
receives). -/
structure LoginState where
  inFlight : Option Nat
  nextId : Nat
  tokenData : Option TokenData
  results : Nat → Option LoginOutcome

/-- Source `login()` (lines 86-94), the synchronous section: if no attempt
is in flight, start one (install the marker); in all cases hand the caller
the in-flight attempt (the promise it will await). -/
def loginCall (s : LoginState) : Nat × LoginState :=
  match s.inFlight with
  | some a => (a, s)
  | none => (s.nextId, { s with inFlight := some s.nextId, nextId := s.nextId + 1 })

/-- Settling of the in-flight attempt: `performLogin` (lines 96-134) stores
the new token on success and leaves it untouched on failure, the `.finally`
handler clears the marker in both cases, and the attempt's result is
recorded for every awaiting caller. -/
def loginSettle (s : LoginState) (o : LoginOutcome) : LoginState :=
  match s.inFlight with
  | some a =>
    { inFlight := none
      nextId := s.nextId
      tokenData := match o with | .success t => some t | .failure _ => s.tokenData
      results := fun n => if n = a then some o else s.results n }
  | none => s

/- Source: ensureValidToken (lines 156-166) and performLogin's token
replacement (lines 128-133), as a pure step. -/

/-- The trigger condition of `ensureValidToken`: no stored token, or its
remaining lifetime is under five minutes. -/
def ensureValidTokenTriggers (now : Int) (st : Option TokenData) : Bool :=
  match st with
  | none => true
  | some t => decide (t.expiresAt - now < 5 * 60 * 1000)

/-- The spec's usability invariant for a stored token:
`now < expiresAt − 5 minutes`. -/
def tokenUsable (now : Int) (t : TokenData) : Prop := now < t.expiresAt - 5 * 60 * 1000

/-- One run of `ensureValidToken`: trigger `login()` exactly when the
condition holds; a successful login replaces the token wholesale with
`{accessToken, expiresAt := now + ExpiresIn * 1000}` (source lines
128-131); a failed login propagates; otherwise the stored token is left
unchanged. -/
def ensureValidTokenRun (now : Int) (st : Option TokenData)
    (loginOutcome : Except String (String × Int)) : Except String (Option TokenData) :=
  if ensureValidTokenTriggers now st then
    match loginOutcome with
    | .ok ak => .ok (some ⟨ak.1, now + ak.2 * 1000⟩)
    | .error e => .error e
  else .ok st

/- Source: the `get` retry loop (lines 168-195). -/

/-- One scripted HTTP response. -/
structure Resp where
  status : Nat
  statusText : String
  body : String
deriving DecidableEq, Repr

/-- `response.ok`: status in the 200-299 range. -/
def Resp.isOk (r : Resp) : Bool := decide (200 ≤ r.status) && decide (r.status < 300)

/-- The `ApiError` message of the source:
`` `Whoop API error: ${status} ${statusText}${excerpt}` ``. -/
def apiErrorMessage (r : Resp) : String :=
  "Whoop API error: " ++ toString r.status ++ " " ++ r.statusText ++ formatResponseExcerpt r.body

/-- Result of one `get(path)` call.  `ok` carries the decoded body (the
decoded payload is modelled by the body string); `apiError` carries the
status and the composed message; `loginError` is a thrown login failure;
`outOfScript` is a model artifact for an exhausted response script. -/
inductive GetOutcome where
  | ok (body : String)
  | apiError (status : Nat) (message : String)
  | loginError (message : String)
  | outOfScript
deriving DecidableEq, Repr

/-- Client state for a `get` run: the stored token, the scripted outcomes of
successive `login()` calls, and a counter of `login()` invocations. -/
structure GetSt where
  tokenData : Option TokenData
  loginSupply : List (Except String TokenData)
  logins : Nat

/-- One `login()` call inside a `get` run: consume the next scripted
outcome; success installs the new token, failure leaves the token. -/
def loginStepM (s : GetSt) : GetSt × Except String TokenData :=
  match s.loginSupply with
  | [] => ({ s with logins := s.logins + 1 }, .error "login: no scripted outcome")
  | r :: rest =>
    ({ tokenData := match r with | .ok t => some t | .error _ => s.tokenData
       loginSupply := rest
       logins := s.logins + 1 }, r)

/-- `ensureValidToken` inside a `get` run (source lines 156-166). -/
def ensureValidTokenM (now : Int) (s : GetSt) : GetSt × Option String :=
  match s.tokenData with
  | none =>
    let step := loginStepM s
    (step.1, match step.2 with | .ok _ => none | .error e => some e)
  | some t =>
    if t.expiresAt - now < 5 * 60 * 1000 then
      let step := loginStepM s
      (step.1, match step.2 with | .ok _ => none | .error e => some e)
    else (s, none)

/-- Token rotation performed by a concurrent caller whose login lands while
this request is awaiting `fetch` (no interference when `none`). -/
def rotateIntf (s : GetSt) (i : Option TokenData) : GetSt :=
  match i with
  | some rotated => { s with tokenData := some rotated }
  | none => s

/-- The 401 branch of the loop body: re-run `login()` only when the stored
token still equals the token used for the failed request
(`this.tokenData?.accessToken === requestToken`). -/
def relogin401 (s : GetSt) (requestToken : String) : GetSt × Option String :=
  if s.tokenData.map TokenData.accessToken = some requestToken then
    let step := loginStepM s
    (step.1, match step.2 with | .ok _ => none | .error e => some e)
  else (s, none)

/-- Source `get(path)` loop (lines 168-195).  Each iteration: `getHeaders`
(ensure a valid token, read the request token), one `fetch` consuming the
next scripted response (counted), and — modelling a concurrent caller whose
login may land while this request is in flight — an optional token rotation
from the interference script applied at the await point.  A success returns
the body; a 401 on a non-retried call marks `retried`, re-runs `login()`
only when the stored token still equals the request token, and loops;
anything else throws `ApiError`.  Returns (outcome, final state, number of
fetches performed). -/
def getLoopM (now : Int) (retried : Bool) (s : GetSt) (responses : List Resp)
    (intf : List (Option TokenData)) : GetOutcome × GetSt × Nat :=
  match responses with
  | [] => (.outOfScript, s, 0)
  | r :: rest =>
    let ensured := ensureValidTokenM now s
    match ensured.2 with
    | some e => (.loginError e, ensured.1, 0)
    | none =>
      match ensured.1.tokenData with
      | none => (.loginError "No access token available", ensured.1, 0)
      | some tok =>
        let s2 := rotateIntf ensured.1 (intf.headD none)
        if r.isOk then (.ok r.body, s2, 1)
        else if r.status = 401 ∧ retried = false then
          let afterLogin := relogin401 s2 tok.accessToken
          match afterLogin.2 with
          | some e => (.loginError e, afterLogin.1, 1)
          | none =>
            let recursed := getLoopM now true afterLogin.1 rest intf.tail
            (recursed.1, recursed.2.1, recursed.2.2 + 1)
        else (.apiError r.status (apiErrorMessage r), s2, 1)

/-- Entry point of one `get(path)` call: `retried` starts false. -/
def whoopGet (now : Int) (s : GetSt) (responses : List Resp)
    (intf : List (Option TokenData)) : GetOutcome × GetSt × Nat :=
  getLoopM now false s responses intf

/- Additional definitions used by the claim statements. -/

/-- Dedup key of a tuple, mirroring `workoutKey`. -/
def keyOfTuple (p : String × String × String) : String :=
  p.1 ++ "|" ++ p.2.1 ++ "|" ++ p.2.2

/-- The sort order of `buildWorkouts`: ascending by start key. -/
def workoutLe (a b : Workout) : Prop :=
  strLe (workoutStartKey a) (workoutStartKey b) = true

/-- Display tree for claim C1, exhibiting the unguarded access: an OVERVIEW
pillar whose `sections` array contains `null`. -/
def c1BadOverview : JsVal :=
  .obj [("pillars", .arr [.obj [("type", .str "OVERVIEW"), ("sections", .arr [JsVal.null])]])]

/-- Display tree for claim C4's counterexample: one ITEMS_CARD carrying one
ACTIVITY of type RUNNING with no title. -/
def c4Overview : JsVal :=
  .obj [("pillars", .arr [.obj [("type", .str "OVERVIEW"),
    ("sections", .arr [.obj [("items", .arr [.obj [("type", .str "ITEMS_CARD"),
      ("content", .obj [("items", .arr [.obj [("type", .str "ACTIVITY"),
        ("content", .obj [("type", .str "RUNNING")])]])])]])]])]])]

/-- A concrete `DateEnv` for closed evaluations: every timestamp is an
invalid date and `toISOString` is constantly empty. -/
def dummyDateEnv : DateEnv :=
  { parseMs := fun _ => none
    fullYear := fun _ => 0
    month0 := fun _ => 0
    dayOfMonth := fun _ => 1
    hoursOf := fun _ => 0
    minutesOf := fun _ => 0
    secondsOf := fun _ => 0
    tzOffsetMin := fun _ => 0
    toISO := fun _ => "" }

/- Helper lemmas. -/

lemma orElse_of_truthy {o : Option String} (f : Unit → Option String)
    (h : strTruthy o = true) : o.orElse f = o := by
  cases o with
  | none => simp [strTruthy] at h
  | some s => rfl

lemma findSome?_lookup_eq (keys : List String) (t : List (String × KeyStat)) :
    keys.findSome? (fun k => t.lookup k) = firstPreferredStat keys t := by
  induction keys with
  | nil => rfl
  | cons k ks ih =>
    rw [List.findSome?_cons]
    cases h : t.lookup k with
    | none => simp [firstPreferredStat, h, ih]
    | some v => simp [firstPreferredStat, h]

lemma find?_containsWeight_eq (t : List (String × KeyStat)) :
    (t.find? (fun p => containsSubstr (jsToUpper p.1) "WEIGHT")).map Prod.snd =
      firstContainsWeight t := by
  induction t with
  | nil => rfl
  | cons p rest ih =>
    by_cases h : containsSubstr (jsToUpper p.1) "WEIGHT" = true
    · simp [List.find?_cons_of_pos _ h, firstContainsWeight, h]
    · rw [List.find?_cons_of_neg _ (by simpa using h)]
      simp [firstContainsWeight, h, ih]

/- Claim C1. -/

/-- C1: the claim states that every display-tree extractor tolerates wrong
types at any node and returns its null/empty default rather than throwing.
The code contradicts it: `getKeyStats` reads `section.items` without a
guard, so on an OVERVIEW pillar whose `sections` array contains `null` the
JavaScript-faithful model throws a TypeError (first conjunct), where the
claimed defensive reading would return the empty table (second conjunct).
The same unguarded `section.items` pattern recurs in the other
section-walking extractors. -/
theorem C1_getKeyStats_throws_on_null_section :
    getKeyStatsE c1BadOverview =
      .error "TypeError: cannot read properties of null (reading items)" ∧
    getKeyStats c1BadOverview = [] := by
  exact ⟨rfl, rfl⟩

/- Claim C6. -/

/-- C6: `parseDisplayNumber` keeps only digits, `.`, `-`; an empty remainder
yields null (first conjunct, for every input string); `parseDisplayInt` is
`Math.round` of the non-null parse (second conjunct); and the claim's
examples: `"72 bpm"` parses to 72, `"--"` and `""` (and nullish input) to
null, `"98.6°F"` to the exact decimal 98.6, which the integer variant
rounds to 99.  Totality (never throwing) holds by construction of the
model: every branch of `parseDisplayNumber` is a value. -/
theorem C6_parseDisplayNumber_policy :
    (∀ s : String, s.data.filter keepNumChar = [] → parseDisplayNumber (some s) = none) ∧
    (∀ s : String, ∀ d : DecNum,
      parseDisplayNumber (some s) = some d → parseDisplayInt (some s) = some (jsRound d)) ∧
    parseDisplayNumber (some "72 bpm") = some ⟨72, 0⟩ ∧
    parseDisplayNumber (some "--") = none ∧
    parseDisplayNumber (some "") = none ∧
    parseDisplayNumber none = none ∧
    parseDisplayNumber (some "98.6°F") = some ⟨986, 1⟩ ∧
    (⟨986, 1⟩ : DecNum).toRat = 98.6 ∧
    (⟨72, 0⟩ : DecNum).toRat = 72 ∧
    parseDisplayInt (some "98.6°F") = some 99 := by
  refine ⟨?_, ?_, by decide, by decide, by decide, rfl, by decide, ?_, ?_, by decide⟩
  · intro s h
    by_cases hs : s = ""
    · simp [parseDisplayNumber, hs]
    · simp [parseDisplayNumber, hs, h]
  · intro s d h
    simp [parseDisplayInt, h]
  · norm_num [DecNum.toRat]
  · norm_num [DecNum.toRat]

/-- Witness for C6: the general conjuncts applied at concrete inputs. -/
theorem C6_witness :
    parseDisplayNumber (some "bpm") = none ∧
    parseDisplayInt (some "98.6°F") = some (jsRound ⟨986, 1⟩) :=
  ⟨C6_parseDisplayNumber_policy.1 "bpm" (by decide),
   C6_parseDisplayNumber_policy.2.1 "98.6°F" ⟨986, 1⟩ (by decide)⟩

/- Claim C8. -/

/-- C8: `formatDurationBetween` rejects every non-positive interval
(including identical endpoints; a missing endpoint also yields null), and
formats a 1-hour-5-minute interval as `"1h 5m"` and a 45-second interval
as `"45s"`, for every base instant. -/
theorem C8_formatDurationBetween (s e : Int) :
    (e - s ≤ 0 → formatDurationBetween (some s) (some e) = none) ∧
    formatDurationBetween none (some e) = none ∧
    formatDurationBetween (some s) none = none ∧
    formatDurationBetween (some s) (some s) = none ∧
    formatDurationBetween (some s) (some (s + 3900000)) = some "1h 5m" ∧
    formatDurationBetween (some s) (some (s + 45000)) = some "45s" := by
  have base : ∀ e1 : Int, formatDurationBetween (some s) (some e1) = formatDurationMs (e1 - s) :=
    fun _ => rfl
  refine ⟨?_, rfl, rfl, ?_, ?_, ?_⟩
  · intro h
    rw [base]
    simp [formatDurationMs, h]
  · rw [base]
    simp [formatDurationMs]
  · rw [base, show s + 3900000 - s = (3900000 : Int) by ring]
    decide
  · rw [base, show s + 45000 - s = (45000 : Int) by ring]
    decide

/-- Witness for C8: the non-positive-interval conjunct at a concrete input. -/
theorem C8_witness :
    ((3 : Int) - 7 ≤ 0) ∧ formatDurationBetween (some 7) (some 3) = none :=
  ⟨by decide, (C8_formatDurationBetween 7 3).1 (by decide)⟩

/- Claim C10. -/

/-- C10: in every `DailyStatsOutput` produced by `buildDailyStats`,
`day.start` equals `sleep.wakeTime` (both are the resolved wake time), so
one is null exactly when the other is. -/
theorem C10_day_start_eq_wake (env : DateEnv) (date : String)
    (overview sleep strain healthspan sleepLastNight : JsVal) :
    (buildDailyStats env date overview sleep strain healthspan sleepLastNight).day.start =
      (buildDailyStats env date overview sleep strain healthspan sleepLastNight).sleep.wakeTime ∧
    ((buildDailyStats env date overview sleep strain healthspan sleepLastNight).day.start = none ↔
      (buildDailyStats env date overview sleep strain healthspan sleepLastNight).sleep.wakeTime
        = none) := by
  exact ⟨rfl, Iff.rfl⟩

/- Claim C7. -/

/-- C7: `getBedWakeTimes` resolves each side independently: for every pair
of trees, the bed side equals the header-derived bed time when that is
present, and otherwise the overview fallback — and symmetrically for the
wake side.  In particular, when exactly one header side is present, the
present side keeps its header value while only the missing side falls
back. -/
theorem C7_bedwake_sides_independent (env : DateEnv) (lastNight overview : JsVal) :
    (getBedWakeTimes env lastNight overview).bedTime =
      (bedTimeFromHeader env lastNight).orElse (fun _ => bedTimeFallback env overview) ∧
    (getBedWakeTimes env lastNight overview).wakeTime =
      (wakeTimeFromHeader env lastNight).orElse (fun _ => wakeTimeFallback env overview) := by
  unfold getBedWakeTimes
  by_cases hb : strTruthy (bedTimeFromHeader env lastNight) = true
  · by_cases hw : strTruthy (wakeTimeFromHeader env lastNight) = true
    · simp only [hb, hw, Bool.and_self, if_pos]
      exact ⟨(orElse_of_truthy _ hb).symm, (orElse_of_truthy _ hw).symm⟩
    · simp only [hb, Bool.true_and, Bool.not_eq_true] at hw ⊢
      simp [hw]
  · simp only [Bool.not_eq_true] at hb
    simp [hb]

/- Claim C5. -/

/-- C5: `getWeightStat` implements exactly the spec-side resolution policy
(first preferred identifier present, else first identifier containing
WEIGHT case-insensitively, else null) for every table; and the claim's two
scenarios: a table with only `BODY_WEIGHT_KG_CUSTOM` resolves through the
contains fallback, and a table with both a contains-match and the exact
`WEIGHT` key prefers the exact entry. -/
theorem C5_getWeightStat_policy (ks : List (String × KeyStat)) (st st2 : KeyStat) :
    getWeightStat ks = getWeightStatSpec ks ∧
    getWeightStat [("BODY_WEIGHT_KG_CUSTOM", st)] = some st ∧
    getWeightStat [("SOMETHING_WEIGHT", st), ("WEIGHT", st2)] = some st2 := by
  refine ⟨?_, rfl, rfl⟩
  unfold getWeightStat getWeightStatSpec
  rw [findSome?_lookup_eq]
  cases firstPreferredStat preferredWeightKeys ks with
  | some v => rfl
  | none =>
    show (match ks.find? (fun p => containsSubstr (jsToUpper p.1) "WEIGHT") with
      | some p => some p.2
      | none => (none : Option KeyStat)) = firstContainsWeight ks
    rw [← find?_containsWeight_eq]
    cases ks.find? (fun p => containsSubstr (jsToUpper p.1) "WEIGHT") <;> rfl

/- Claim C9. -/

/-- C9 counterexample: with a stored token whose remaining lifetime is
EXACTLY five minutes, `ensureValidToken` does not trigger a login and
returns with the token unchanged — yet the claim's invariant
`now < expiresAt − 5 minutes` fails (the margin is not strict), so the
claim that the token is always usable after `ensureValidToken` returns is
false at this input. -/
theorem C9_counterexample :
    ensureValidTokenRun 0 (some ⟨"tok", 300000⟩) (.ok ("fresh", 3600)) =
      .ok (some ⟨"tok", 300000⟩) ∧
    ¬ tokenUsable 0 ⟨"tok", 300000⟩ := by
  exact ⟨rfl, by simp [tokenUsable]⟩

/-- C9 (amended): `ensureValidToken` triggers `login()` iff no token exists
or the remaining lifetime is strictly under 5 minutes; when it does not
trigger, the token is unchanged and satisfies `now ≤ expiresAt − 5 minutes`
(equality possible at the boundary); a successful login replaces the token
wholesale with `{accessToken, expiresAt = now + ExpiresIn·1000}`, which
satisfies the strict usability invariant exactly when `ExpiresIn > 300`
seconds; a failed login propagates the failure. -/
theorem C9_ensureValidToken_amended (now : Int) (st : Option TokenData)
    (lr : Except String (String × Int)) (ak : String) (ei : Int) :
    (ensureValidTokenTriggers now st = true ↔
      st = none ∨ ∃ t, st = some t ∧ t.expiresAt - now < 5 * 60 * 1000) ∧
    (ensureValidTokenTriggers now st = false →
      ensureValidTokenRun now st lr = .ok st ∧
        ∀ t, st = some t → now ≤ t.expiresAt - 5 * 60 * 1000) ∧
    (ensureValidTokenTriggers now st = true →
      ensureValidTokenRun now st (.ok (ak, ei)) = .ok (some ⟨ak, now + ei * 1000⟩) ∧
        (300 < ei → tokenUsable now ⟨ak, now + ei * 1000⟩)) ∧
    (ensureValidTokenTriggers now st = true →
      ∀ e, ensureValidTokenRun now st (.error e) = .error e) := by
  refine ⟨?_, ?_, ?_, ?_⟩
  · cases st with
    | none => simp [ensureValidTokenTriggers]
    | some t =>
      simp only [ensureValidTokenTriggers, decide_eq_true_eq]
      constructor
      · intro h
        exact Or.inr ⟨t, rfl, h⟩
      · rintro (h | ⟨t2, ht2, h⟩)
        · exact absurd h (by simp)
        · cases ht2
          exact h
  · intro h
    refine ⟨by simp [ensureValidTokenRun, h], ?_⟩
    intro t ht
    subst ht
    simp only [ensureValidTokenTriggers, decide_eq_false_iff_not, not_lt] at h
    omega
  · intro h
    refine ⟨by simp [ensureValidTokenRun, h], ?_⟩
    intro hei
    simp only [tokenUsable]
    omega
  · intro h e
    simp [ensureValidTokenRun, h]

/-- Witness for C9: a token ten minutes from expiry is left alone and is
usable; an expiring token is replaced wholesale and the fresh hour-long
token satisfies the usability invariant. -/
theorem C9_witness :
    (ensureValidTokenTriggers 0 (some ⟨"keep", 600000⟩) = false) ∧
    ensureValidTokenRun 0 (some ⟨"keep", 600000⟩) (.ok ("new", 3600)) =
      .ok (some ⟨"keep", 600000⟩) ∧
    (ensureValidTokenTriggers 0 (some ⟨"old", 100⟩) = true) ∧
    ensureValidTokenRun 0 (some ⟨"old", 100⟩) (.ok ("new", 3600)) =
      .ok (some ⟨"new", 3600000⟩) ∧
    tokenUsable 0 ⟨"new", 3600000⟩ :=
  ⟨by decide,
   ((C9_ensureValidToken_amended 0 (some ⟨"keep", 600000⟩) (.ok ("new", 3600)) "new" 3600).2.1
      (by decide)).1,
   by decide,
   ((C9_ensureValidToken_amended 0 (some ⟨"old", 100⟩) (.ok ("new", 3600)) "new" 3600).2.2.1
      (by decide)).1,
   ((C9_ensureValidToken_amended 0 (some ⟨"old", 100⟩) (.ok ("new", 3600)) "new" 3600).2.2.1
      (by decide)).2 (by decide)⟩

/- Claim C2. -/

/-- C2: single-flight login.  On the event-loop model of `login()`:
(i) every `login()` call made while attempt `a` is in flight is handed the
same attempt `a` and changes nothing, so all concurrent callers share the
single outstanding attempt and await the same promise;
(ii) settling an attempt (success or failure) clears the in-flight marker;
(iii) every caller holding attempt `a` receives the settle outcome of `a` —
the same token on success (which is also stored), the same failure on error
(token untouched);
(iv) a `login()` call with no attempt in flight starts a fresh attempt, and
in particular the call made after a settle gets an attempt distinct from
the settled one rather than being stuck on it. -/
theorem C2_login_single_flight (s : LoginState) (a : Nat) (o : LoginOutcome) (t : TokenData) :
    (s.inFlight = some a → loginCall s = (a, s)) ∧
    ((loginSettle s o).inFlight = none) ∧
    (s.inFlight = some a → (loginSettle s o).results a = some o) ∧
    (s.inFlight = some a → o = .success t → (loginSettle s o).tokenData = some t) ∧
    (s.inFlight = some a → (∀ e, o = .failure e → (loginSettle s o).tokenData = s.tokenData)) ∧
    (s.inFlight = none →
      loginCall s = (s.nextId, { s with inFlight := some s.nextId, nextId := s.nextId + 1 })) ∧
    (s.inFlight = some a → a < s.nextId →
      (loginCall (loginSettle s o)).1 = (loginSettle s o).nextId ∧
        (loginCall (loginSettle s o)).1 ≠ a ∧
        (loginCall (loginSettle s o)).2.inFlight = some (loginCall (loginSettle s o)).1) := by
  refine ⟨?_, ?_, ?_, ?_, ?_, ?_, ?_⟩
  · intro h
    simp [loginCall, h]
  · cases h : s.inFlight <;> simp [loginSettle, h]
  · intro h
    simp [loginSettle, h]
  · intro h ho
    subst ho
    simp [loginSettle, h]
  · intro h e ho
    subst ho
    simp [loginSettle, h]
  · intro h
    simp [loginCall, h]
  · intro h hlt
    have hset : (loginSettle s o).inFlight = none := by
      cases h2 : s.inFlight <;> simp [loginSettle, h2]
    have hnext : (loginSettle s o).nextId = s.nextId := by
      cases h2 : s.inFlight <;> simp [loginSettle, h2]
    refine ⟨by simp [loginCall, hset], ?_, by simp [loginCall, hset]⟩
    simp only [loginCall, hset, hnext]
    omega

/-- Witness for C2: a concrete state with attempt 5 in flight; a concurrent
call shares it, the settle clears the marker and stores the token, and the
next call starts fresh attempt 6. -/
theorem C2_witness :
    loginCall ⟨some 5, 6, none, fun _ => none⟩ = (5, ⟨some 5, 6, none, fun _ => none⟩) ∧
    (loginSettle ⟨some 5, 6, none, fun _ => none⟩ (.success ⟨"tok", 99⟩)).inFlight = none ∧
    (loginSettle ⟨some 5, 6, none, fun _ => none⟩ (.success ⟨"tok", 99⟩)).results 5 =
      some (.success ⟨"tok", 99⟩) ∧
    (loginSettle ⟨some 5, 6, none, fun _ => none⟩ (.success ⟨"tok", 99⟩)).tokenData =
      some ⟨"tok", 99⟩ ∧
    (loginCall (loginSettle ⟨some 5, 6, none, fun _ => none⟩ (.success ⟨"tok", 99⟩))).1 ≠ 5 :=
  ⟨(C2_login_single_flight ⟨some 5, 6, none, fun _ => none⟩ 5 (.success ⟨"tok", 99⟩)
      ⟨"tok", 99⟩).1 rfl,
   (C2_login_single_flight ⟨some 5, 6, none, fun _ => none⟩ 5 (.success ⟨"tok", 99⟩)
      ⟨"tok", 99⟩).2.1,
   (C2_login_single_flight ⟨some 5, 6, none, fun _ => none⟩ 5 (.success ⟨"tok", 99⟩)
      ⟨"tok", 99⟩).2.2.1 rfl,
   (C2_login_single_flight ⟨some 5, 6, none, fun _ => none⟩ 5 (.success ⟨"tok", 99⟩)
      ⟨"tok", 99⟩).2.2.2.1 rfl rfl,
   ((C2_login_single_flight ⟨some 5, 6, none, fun _ => none⟩ 5 (.success ⟨"tok", 99⟩)
      ⟨"tok", 99⟩).2.2.2.2.2.2 rfl (by decide)).2.1⟩

/- Helper lemmas for the get loop. -/

lemma resp_401_not_ok (r : Resp) (h : r.status = 401) : r.isOk = false := by
  simp [Resp.isOk, h]

lemma getLoopM_true_fetches_le (now : Int) (s : GetSt) (rs : List Resp)
    (intf : List (Option TokenData)) : (getLoopM now true s rs intf).2.2 ≤ 1 := by
  cases rs with
  | nil => simp [getLoopM]
  | cons r rest =>
    simp only [getLoopM]
    cases hE : (ensureValidTokenM now s).2 with
    | some e => simp
    | none =>
      cases hT : (ensureValidTokenM now s).1.tokenData with
      | none => simp
      | some tok =>
        by_cases hok : r.isOk
        · simp [hok]
        · have hcond : ¬ (r.status = 401 ∧ true = false) := by simp
          simp [hok, hcond]

lemma whoopGet_fetches_le_two (now : Int) (s : GetSt) (rs : List Resp)
    (intf : List (Option TokenData)) : (whoopGet now s rs intf).2.2 ≤ 2 := by
  cases rs with
  | nil => simp [whoopGet, getLoopM]
  | cons r rest =>
    simp only [whoopGet, getLoopM]
    cases hE : (ensureValidTokenM now s).2 with
    | some e => simp
    | none =>
      cases hT : (ensureValidTokenM now s).1.tokenData with
      | none => simp
      | some tok =>
        repeat' split
        all_goals first
          | exact getLoopM_true_fetches_le now _ rest _
          | exact Nat.add_le_add_right (getLoopM_true_fetches_le now _ rest _) 1
          | simp

lemma getLoop_ok_step (now : Int) (retried : Bool) (t0 : TokenData)
    (sup : List (Except String TokenData)) (lg : Nat) (r : Resp) (rest : List Resp)
    (intf : List (Option TokenData)) (h0 : ¬ (t0.expiresAt - now < 5 * 60 * 1000))
    (hok : r.isOk = true) :
    getLoopM now retried ⟨some t0, sup, lg⟩ (r :: rest) (none :: intf) =
      (.ok r.body, ⟨some t0, sup, lg⟩, 1) := by
  simp only [getLoopM, ensureValidTokenM]
  rw [if_neg h0]
  simp [rotateIntf, hok]

lemma getLoop_err_step (now : Int) (retried : Bool) (t0 : TokenData)
    (sup : List (Except String TokenData)) (lg : Nat) (r : Resp) (rest : List Resp)
    (intf : List (Option TokenData)) (h0 : ¬ (t0.expiresAt - now < 5 * 60 * 1000))
    (hnok : r.isOk = false) (hcond : ¬ (r.status = 401 ∧ retried = false)) :
    getLoopM now retried ⟨some t0, sup, lg⟩ (r :: rest) (none :: intf) =
      (.apiError r.status (apiErrorMessage r), ⟨some t0, sup, lg⟩, 1) := by
  simp only [getLoopM, ensureValidTokenM]
  rw [if_neg h0]
  simp [rotateIntf, hnok, hcond]

lemma getLoop_401_step (now : Int) (t0 t1 : TokenData)
    (sup : List (Except String TokenData)) (lg : Nat) (r : Resp) (rest : List Resp)
    (intf : List (Option TokenData)) (h0 : ¬ (t0.expiresAt - now < 5 * 60 * 1000))
    (hnok : r.isOk = false) (h401 : r.status = 401) :
    getLoopM now false ⟨some t0, .ok t1 :: sup, lg⟩ (r :: rest) (none :: intf) =
      ((getLoopM now true ⟨some t1, sup, lg + 1⟩ rest intf).1,
       (getLoopM now true ⟨some t1, sup, lg + 1⟩ rest intf).2.1,
       (getLoopM now true ⟨some t1, sup, lg + 1⟩ rest intf).2.2 + 1) := by
  simp only [getLoopM, ensureValidTokenM]
  rw [if_neg h0]
  simp [rotateIntf, relogin401, loginStepM, hnok, h401]

lemma getLoop_401_rotated (now : Int) (t0 t1 : TokenData)
    (sup : List (Except String TokenData)) (lg : Nat) (r : Resp) (rest : List Resp)
    (intf : List (Option TokenData)) (h0 : ¬ (t0.expiresAt - now < 5 * 60 * 1000))
    (hnok : r.isOk = false) (h401 : r.status = 401)
    (hne : ¬ t1.accessToken = t0.accessToken) :
    getLoopM now false ⟨some t0, sup, lg⟩ (r :: rest) (some t1 :: intf) =
      ((getLoopM now true ⟨some t1, sup, lg⟩ rest intf).1,
       (getLoopM now true ⟨some t1, sup, lg⟩ rest intf).2.1,
       (getLoopM now true ⟨some t1, sup, lg⟩ rest intf).2.2 + 1) := by
  simp only [getLoopM, ensureValidTokenM]
  rw [if_neg h0]
  simp [rotateIntf, relogin401, hnok, h401, hne]

/- Claim C3. -/

/-- C3: the `get(path)` retry policy, for a client whose current token (and
any freshly delivered token) is not near expiry.  Conjuncts, in order:
(1) an HTTP-success response returns the decoded body with no login and one
fetch; (2) a 401 on the first attempt triggers exactly one `login()` and
exactly one retry, and a successful retry returns its payload; (3) a second
consecutive failure fails with `ApiError` carrying the second status and
its excerpt-bearing message, still after exactly one login and two fetches;
(4) a first-attempt non-success other than 401 fails immediately with the
first status's `ApiError`, no login, one fetch; (5) when a concurrent
caller has already rotated the token while the 401 response was in flight,
the 401 branch performs NO login (the request token is stale) and still
retries once with the now-current token; (6) for every state, response
script and interference script, the call performs at most two fetches — the
request is never retried more than once; (7) the error excerpt is truncated:
at most 309 characters (9 for the marker, 300 for the body slice). -/
theorem C3_get_retry_policy (now : Int) (t0 t1 : TokenData) (r1 r2 : Resp)
    (h0 : ¬ (t0.expiresAt - now < 5 * 60 * 1000))
    (h1 : ¬ (t1.expiresAt - now < 5 * 60 * 1000)) :
    (r1.isOk = true →
      whoopGet now ⟨some t0, [], 0⟩ [r1, r2] [none, none] =
        (.ok r1.body, ⟨some t0, [], 0⟩, 1)) ∧
    (r1.status = 401 → r2.isOk = true →
      whoopGet now ⟨some t0, [.ok t1], 0⟩ [r1, r2] [none, none] =
        (.ok r2.body, ⟨some t1, [], 1⟩, 2)) ∧
    (r1.status = 401 → r2.isOk = false → ¬ (r2.status = 401 ∧ true = false) →
      whoopGet now ⟨some t0, [.ok t1], 0⟩ [r1, r2] [none, none] =
        (.apiError r2.status (apiErrorMessage r2), ⟨some t1, [], 1⟩, 2)) ∧
    (r1.isOk = false → ¬ r1.status = 401 →
      whoopGet now ⟨some t0, [], 0⟩ [r1, r2] [none, none] =
        (.apiError r1.status (apiErrorMessage r1), ⟨some t0, [], 0⟩, 1)) ∧
    (r1.status = 401 → ¬ t1.accessToken = t0.accessToken → r2.isOk = true →
      whoopGet now ⟨some t0, [], 0⟩ [r1, r2] [some t1, none] =
        (.ok r2.body, ⟨some t1, [], 0⟩, 2)) ∧
    (∀ (s : GetSt) (responses : List Resp) (intf : List (Option TokenData)),
      (whoopGet now s responses intf).2.2 ≤ 2) ∧
    (∀ b : String, (formatResponseExcerpt b).length ≤ 309) := by
  refine ⟨?_, ?_, ?_, ?_, ?_, ?_, ?_⟩
  · intro hok
    exact getLoop_ok_step now false t0 [] 0 r1 [r2] [none] h0 hok
  · intro h401 hok2
    show getLoopM now false ⟨some t0, [.ok t1], 0⟩ (r1 :: [r2]) (none :: [none]) = _
    rw [getLoop_401_step now t0 t1 [] 0 r1 [r2] [none] h0 (resp_401_not_ok r1 h401) h401,
      getLoop_ok_step now true t1 [] 1 r2 [] [] h1 hok2]
  · intro h401 hnok2 hcond2
    show getLoopM now false ⟨some t0, [.ok t1], 0⟩ (r1 :: [r2]) (none :: [none]) = _
    rw [getLoop_401_step now t0 t1 [] 0 r1 [r2] [none] h0 (resp_401_not_ok r1 h401) h401,
      getLoop_err_step now true t1 [] 1 r2 [] [] h1 hnok2 hcond2]
  · intro hnok h401ne
    exact getLoop_err_step now false t0 [] 0 r1 [r2] [none] h0 hnok (fun h => h401ne h.1)
  · intro h401 hne hok2
    show getLoopM now false ⟨some t0, [], 0⟩ (r1 :: [r2]) (some t1 :: [none]) = _
    rw [getLoop_401_rotated now t0 t1 [] 0 r1 [r2] [none] h0 (resp_401_not_ok r1 h401) h401 hne,
      getLoop_ok_step now true t1 [] 0 r2 [] [] h1 hok2]
  · intro s responses intf
    exact whoopGet_fetches_le_two now s responses intf
  · intro b
    by_cases hb : jsTrim b = ""
    · simp [formatResponseExcerpt, hb]
    · have hstep : formatResponseExcerpt b =
          " | body: " ++ String.mk ((collapseWs (jsTrim b)).data.take 300) := by
        simp [formatResponseExcerpt, hb]
      rw [hstep, String.length_append]
      have h1len : (" | body: ").length = 9 := by decide
      have h2len : (String.mk ((collapseWs (jsTrim b)).data.take 300)).length ≤ 300 := by
        show ((collapseWs (jsTrim b)).data.take 300).length ≤ 300
        simp [List.length_take]
      omega

/-- Witness for C3: the 401-then-success scenario at a concrete client state
and response script, via the theorem. -/
theorem C3_witness :
    whoopGet 0 ⟨some ⟨"a", 1000000000⟩, [.ok ⟨"b", 1000000000⟩], 0⟩
        [⟨401, "Unauthorized", ""⟩, ⟨200, "OK", "payload"⟩] [none, none] =
      (.ok "payload", ⟨some ⟨"b", 1000000000⟩, [], 1⟩, 2) :=
  (C3_get_retry_policy 0 ⟨"a", 1000000000⟩ ⟨"b", 1000000000⟩
      ⟨401, "Unauthorized", ""⟩ ⟨200, "OK", "payload"⟩
      (by decide) (by decide)).2.1 rfl (by decide)

/- Lemmas about the lexicographic comparator and the stable sort. -/

lemma strLeAux_total (a b : List Char) : strLeAux a b = true ∨ strLeAux b a = true := by
  induction a generalizing b with
  | nil => exact Or.inl rfl
  | cons x xs ih =>
    cases b with
    | nil => exact Or.inr rfl
    | cons y ys =>
      by_cases h1 : x.toNat < y.toNat
      · exact Or.inl (by simp [strLeAux, h1])
      · by_cases h2 : y.toNat < x.toNat
        · exact Or.inr (by simp [strLeAux, h2])
        · cases ih ys with
          | inl h => exact Or.inl (by simp [strLeAux, h1, h2, h])
          | inr h => exact Or.inr (by simp [strLeAux, h1, h2, h])

lemma strLeAux_trans (a b c : List Char) (hab : strLeAux a b = true)
    (hbc : strLeAux b c = true) : strLeAux a c = true := by
  induction a generalizing b c with
  | nil => rfl
  | cons x xs ih =>
    cases b with
    | nil => simp [strLeAux] at hab
    | cons y ys =>
      cases c with
      | nil => simp [strLeAux] at hbc
      | cons z zs =>
        simp only [strLeAux] at hab hbc ⊢
        split_ifs at hab hbc ⊢ <;>
          first
            | rfl
            | omega
            | (exact ih ys zs hab hbc)

lemma workoutLe_total (a b : Workout) : workoutLe a b ∨ workoutLe b a :=
  strLeAux_total (workoutStartKey a).data (workoutStartKey b).data

lemma workoutLe_trans {a b c : Workout} (hab : workoutLe a b) (hbc : workoutLe b c) :
    workoutLe a c :=
  strLeAux_trans (workoutStartKey a).data (workoutStartKey b).data (workoutStartKey c).data hab hbc

lemma mem_orderedInsertWorkout (w y : Workout) (l : List Workout) :
    y ∈ orderedInsertWorkout w l ↔ y = w ∨ y ∈ l := by
  induction l with
  | nil => simp [orderedInsertWorkout]
  | cons x xs ih =>
    simp only [orderedInsertWorkout]
    split
    · simp [List.mem_cons]
    · simp only [List.mem_cons, ih]
      tauto

lemma perm_orderedInsertWorkout (w : Workout) (l : List Workout) :
    (orderedInsertWorkout w l).Perm (w :: l) := by
  induction l with
  | nil => exact List.Perm.refl _
  | cons x xs ih =>
    simp only [orderedInsertWorkout]
    split
    · exact List.Perm.refl _
    · exact (ih.cons x).trans (List.Perm.swap w x xs)

lemma perm_sortWorkouts (l : List Workout) : (sortWorkouts l).Perm l := by
  induction l with
  | nil => exact List.Perm.refl _
  | cons w ws ih =>
    exact (perm_orderedInsertWorkout w (sortWorkouts ws)).trans (ih.cons w)

lemma sorted_orderedInsertWorkout (w : Workout) (l : List Workout)
    (h : List.Sorted workoutLe l) : List.Sorted workoutLe (orderedInsertWorkout w l) := by
  induction l with
  | nil => simp [orderedInsertWorkout]
  | cons x xs ih =>
    rw [List.sorted_cons] at h
    obtain ⟨hx, hxs⟩ := h
    simp only [orderedInsertWorkout]
    split
    · rename_i hle
      rw [List.sorted_cons]
      refine ⟨?_, List.sorted_cons.mpr ⟨hx, hxs⟩⟩
      intro b hb
      rcases List.mem_cons.mp hb with rfl | hb
      · exact hle
      · exact workoutLe_trans hle (hx b hb)
    · rename_i hnle
      rw [List.sorted_cons]
      refine ⟨?_, ih hxs⟩
      intro b hb
      rcases (mem_orderedInsertWorkout w b xs).mp hb with rfl | hb
      · cases workoutLe_total b x with
        | inl hcon => exact absurd hcon hnle
        | inr hok => exact hok
      · exact hx b hb

lemma sorted_sortWorkouts (l : List Workout) : List.Sorted workoutLe (sortWorkouts l) := by
  induction l with
  | nil => simp [sortWorkouts]
  | cons w ws ih => exact sorted_orderedInsertWorkout w (sortWorkouts ws) ih

/- Lemmas about key-based versus tuple-based deduplication. -/

lemma pipe_append_inj (a1 : List Char) :
    ∀ (a2 r1 r2 : List Char), '|' ∉ a1 → '|' ∉ a2 →
      a1 ++ '|' :: r1 = a2 ++ '|' :: r2 → a1 = a2 ∧ r1 = r2 := by
  induction a1 with
  | nil =>
    intro a2 r1 r2 _ h2 h
    cases a2 with
    | nil => simpa using h
    | cons y ys =>
      simp only [List.nil_append, List.cons_append, List.cons.injEq] at h
      exact absurd (h.1 ▸ List.mem_cons_self y ys) h2
  | cons x xs ih =>
    intro a2 r1 r2 h1 h2 h
    cases a2 with
    | nil =>
      simp only [List.nil_append, List.cons_append, List.cons.injEq] at h
      exact absurd (h.1 ▸ List.mem_cons_self x xs) h1
    | cons y ys =>
      simp only [List.cons_append, List.cons.injEq] at h
      have htail := ih ys r1 r2 (fun hm => h1 (List.mem_cons_of_mem x hm))
        (fun hm => h2 (List.mem_cons_of_mem y hm)) h.2
      exact ⟨by rw [h.1, htail.1], htail.2⟩

lemma keyOfTuple_inj (p q : String × String × String)
    (hp1 : '|' ∉ p.2.1.data) (hp2 : '|' ∉ p.2.2.data)
    (hq1 : '|' ∉ q.2.1.data) (hq2 : '|' ∉ q.2.2.data)
    (h : keyOfTuple p = keyOfTuple q) : p = q := by
  obtain ⟨n1, s1, e1⟩ := p
  obtain ⟨n2, s2, e2⟩ := q
  simp only [keyOfTuple] at h
  have hd : n1.data ++ '|' :: (s1.data ++ '|' :: e1.data) =
      n2.data ++ '|' :: (s2.data ++ '|' :: e2.data) := by
    have := congrArg String.data h
    simpa [String.data_append, List.append_assoc] using this
  have hr := congrArg List.reverse hd
  simp only [List.reverse_append, List.reverse_cons, List.append_assoc, List.singleton_append,
    List.nil_append] at hr
  have step1 := pipe_append_inj e1.data.reverse e2.data.reverse
    (s1.data.reverse ++ '|' :: n1.data.reverse) (s2.data.reverse ++ '|' :: n2.data.reverse)
    (by simpa using hp2) (by simpa using hq2) (by simpa [List.append_assoc] using hr)
  have step2 := pipe_append_inj s1.data.reverse s2.data.reverse n1.data.reverse n2.data.reverse
    (by simpa using hp1) (by simpa using hq1) step1.2
  have he : e1 = e2 := String.ext (List.reverse_injective step1.1)
  have hs : s1 = s2 := String.ext (List.reverse_injective step2.1)
  have hn : n1 = n2 := String.ext (List.reverse_injective step2.2)
  simp [he, hs, hn]

lemma workoutKey_eq_keyOfTuple (w : Workout) : workoutKey w = keyOfTuple (workoutTuple w) := rfl

lemma workoutOfActivity_pipe (env : DateEnv) (hpipe : ∀ t : Int, '|' ∉ (env.toISO t).data)
    (a : RawActivity) (w : Workout) (h : workoutOfActivity env a = some w) :
    '|' ∉ (w.start.getD "").data ∧ '|' ∉ (w.stop.getD "").data := by
  simp only [workoutOfActivity] at h
  split at h
  · exact absurd h (by simp)
  · simp only [Option.some.injEq] at h
    subst h
    constructor
    · cases parseDate env a.start with
      | none => simp
      | some t => simpa using hpipe t
    · cases parseDate env a.stop with
      | none => simp
      | some t => simpa using hpipe t

lemma go_eq_dedup (env : DateEnv) (hpipe : ∀ t : Int, '|' ∉ (env.toISO t).data) :
    ∀ (l : List RawActivity) (seenT : List (String × String × String)),
      (∀ p ∈ seenT, '|' ∉ p.2.1.data ∧ '|' ∉ p.2.2.data) →
      buildWorkoutsGo env (seenT.map keyOfTuple) l =
        dedupByTupleAux seenT (l.filterMap (workoutOfActivity env)) := by
  intro l
  induction l with
  | nil => intro seenT hinv; rfl
  | cons a rest ih =>
    intro seenT hinv
    simp only [buildWorkoutsGo, List.filterMap_cons]
    cases hw : workoutOfActivity env a with
    | none => exact ih seenT hinv
    | some w =>
      have hwp := workoutOfActivity_pipe env hpipe a w hw
      have hmem : (workoutKey w ∈ seenT.map keyOfTuple) ↔ workoutTuple w ∈ seenT := by
        constructor
        · intro hm
          obtain ⟨p, hp, hpk⟩ := List.mem_map.mp hm
          have hpw : p = workoutTuple w :=
            keyOfTuple_inj p (workoutTuple w) (hinv p hp).1 (hinv p hp).2 hwp.1 hwp.2
              (hpk.trans (workoutKey_eq_keyOfTuple w))
          exact hpw ▸ hp
        · intro hm
          exact List.mem_map.mpr ⟨workoutTuple w, hm, (workoutKey_eq_keyOfTuple w).symm⟩
      simp only [dedupByTupleAux]
      by_cases hseen : workoutTuple w ∈ seenT
      · rw [if_pos (hmem.mpr hseen), if_pos hseen]
        exact ih seenT hinv
      · rw [if_neg (fun hm => hseen (hmem.mp hm)), if_neg hseen]
        have hx : workoutKey w :: seenT.map keyOfTuple =
            (workoutTuple w :: seenT).map keyOfTuple := by
          simp [workoutKey_eq_keyOfTuple]
        rw [hx]
        refine congrArg (w :: ·) (ih (workoutTuple w :: seenT) ?_)
        intro p hp
        rcases List.mem_cons.mp hp with rfl | hp
        · exact hwp
        · exact hinv p hp

lemma dedupByTupleAux_nodup :
    ∀ (l : List Workout) (seen : List (String × String × String)),
      ((dedupByTupleAux seen l).map workoutTuple).Nodup ∧
        ∀ p ∈ (dedupByTupleAux seen l).map workoutTuple, p ∉ seen := by
  intro l
  induction l with
  | nil => intro seen; simp [dedupByTupleAux]
  | cons w rest ih =>
    intro seen
    simp only [dedupByTupleAux]
    by_cases h : workoutTuple w ∈ seen
    · rw [if_pos h]
      exact ih seen
    · rw [if_neg h]
      simp only [List.map_cons, List.nodup_cons, List.mem_cons]
      refine ⟨⟨?_, (ih (workoutTuple w :: seen)).1⟩, ?_⟩
      · intro hmem
        exact (ih (workoutTuple w :: seen)).2 _ hmem (List.mem_cons_self _ _)
      · rintro p (rfl | hp)
        · exact h
        · intro hpseen
          exact (ih (workoutTuple w :: seen)).2 p hp (List.mem_cons_of_mem _ hpseen)

/- Claim C4. -/

/-- C4 counterexample: the claim says `buildWorkouts` returns exactly the
ACTIVITY entries excluding those whose title or type equals SLEEP.  The
source additionally drops every entry whose title is missing or empty
(`!title`).  On a tree with one RUNNING activity that has no title, the
collected entry exists and is not sleep-tagged, the literal-claim pipeline
would keep it (as "Workout"), yet the source returns the empty list. -/
theorem C4_counterexample :
    getActivitiesFromOverview c4Overview = [⟨none, some "RUNNING", none, none⟩] ∧
    buildWorkouts dummyDateEnv c4Overview .null = [] ∧
    buildWorkoutsClaimed dummyDateEnv c4Overview .null = [⟨"Workout", none, none, none⟩] :=
  ⟨rfl, rfl, rfl⟩

/-- C4 (amended): over any overview and strain trees, `buildWorkouts`
returns exactly the ACTIVITY entries of the two collectors, excluding every
entry whose title or type case-insensitively equals SLEEP AND every entry
whose title is missing or empty, each kept entry transformed by
`workoutOfActivity` (name normalised by `normalizeWorkoutName`, ISO
endpoints, human duration), deduplicated by the tuple (name, start, end)
with the first occurrence winning, and sorted ascending by start key with
missing starts (empty key) first.  The hypothesis states the one fact the
embedding takes from `Date.prototype.toISOString`: its output never
contains the `|` character used to build the dedup key.  Conjuncts:
equality with the spec-side tuple-dedup pipeline; sortedness of the output;
no two output entries share the dedup tuple; and missing-start entries
compare no greater than any entry. -/
theorem C4_buildWorkouts_amended (env : DateEnv) (overview strain : JsVal)
    (hpipe : ∀ t : Int, '|' ∉ (env.toISO t).data) :
    buildWorkouts env overview strain = buildWorkoutsSpec env overview strain ∧
    List.Sorted workoutLe (buildWorkouts env overview strain) ∧
    ((buildWorkouts env overview strain).map workoutTuple).Nodup ∧
    (∀ w x : Workout, x.start = none → workoutLe x w) := by
  have hgo := go_eq_dedup env hpipe
    (getActivitiesFromOverview overview ++ getActivitiesFromStrain strain) []
    (by intro p hp; simp at hp)
  simp only [List.map_nil] at hgo
  refine ⟨?_, sorted_sortWorkouts _, ?_, ?_⟩
  · show sortWorkouts _ = sortWorkouts _
    rw [hgo]
  · show (List.map workoutTuple (sortWorkouts _)).Nodup
    rw [hgo]
    exact (((perm_sortWorkouts _).map workoutTuple).nodup_iff).mpr
      (dedupByTupleAux_nodup _ []).1
  · intro w x hx
    show strLeAux (workoutStartKey x).data (workoutStartKey w).data = true
    have : workoutStartKey x = "" := by simp [workoutStartKey, hx]
    rw [this]
    rfl

/-- Witness for C4: the amended theorem applied at the concrete environment
whose `toISOString` is pipe-free, on the counterexample tree. -/
theorem C4_witness :
    buildWorkouts dummyDateEnv c4Overview .null = buildWorkoutsSpec dummyDateEnv c4Overview .null ∧
    List.Sorted workoutLe (buildWorkouts dummyDateEnv c4Overview .null) :=
  ⟨(C4_buildWorkouts_amended dummyDateEnv c4Overview .null (fun t => by simp [dummyDateEnv])).1,
   (C4_buildWorkouts_amended dummyDateEnv c4Overview .null (fun t => by simp [dummyDateEnv])).2.1⟩
